import Mathlib

/-!
Shallow embedding of the macsim DRAM controller (`src/src/dram.cc`) and proofs
about it.  Pointers to heap-allocated `drb_entry_s` objects are modelled as
values carrying a `slot` field that stands for the object's address: no source
operation ever changes an object's address, so no operation here changes
`slot`.  `std::list::remove(ptr)` removes the elements equal to the pointer,
i.e. the elements with that `slot`.  The `Counter` type of the source is
`unsigned long long`; its saturation value `ULLONG_MAX` is kept literally.
-/

set_option maxHeartbeats 1000000

namespace Dram

/-- Memory-request types, from `mem_req_s` (`memreq_info.h`, used at
`dram.cc:136` and `dram.cc:294`). -/
inductive ReqType where
  | MRT_IFETCH
  | MRT_DFETCH
  | MRT_DSTORE
  | MRT_IPRF
  | MRT_DPRF
  | MRT_WB
  | MRT_SW_DPRF
  | MRT_SW_DPRF_NTA
  | MRT_SW_DPRF_T0
  | MRT_SW_DPRF_T1
  | MRT_SW_DPRF_T2
  deriving DecidableEq, Repr

/-- Lifecycle states of an external memory request that `dram.cc` writes
(`MEM_DRAM_START`, `MEM_DRAM_CMD`, `MEM_DRAM_DATA`, `MEM_DRAM_DONE`);
`MEM_NEW` stands for any state prior to entering the controller. -/
inductive MemState where
  | MEM_NEW
  | MEM_DRAM_START
  | MEM_DRAM_CMD
  | MEM_DRAM_DATA
  | MEM_DRAM_DONE
  deriving DecidableEq, Repr

/-- Per-entry DRAM state machine states (`dram.cc:76`). -/
inductive DramState where
  | DRAM_INIT
  | DRAM_CMD
  | DRAM_CMD_WAIT
  | DRAM_DATA
  | DRAM_DATA_WAIT
  deriving DecidableEq, Repr

/-- The fields of an external `mem_req_s` that the controller reads or
writes. -/
structure MemReq where
  m_id : Nat
  m_addr : Nat
  m_size : Nat
  m_type : ReqType
  m_ptx : Bool
  m_state : MemState
  m_core_id : Int
  m_thread_id : Int
  m_appl_id : Int
  deriving DecidableEq, Repr

/-- The `ULLONG_MAX`, the "infinity" sentinel of the source's `Counter` values. -/
def ullongMax : Nat := 2 ^ 64 - 1

/-- A DRAM request-buffer entry, `drb_entry_s`.  `slot` models the entry
object's identity (its heap address); it is not a source field and is never
modified. -/
structure DrbEntry where
  slot : Nat
  m_id : Int
  m_state : DramState
  m_addr : Nat
  m_bid : Int
  m_rid : Int
  m_cid : Int
  m_core_id : Int
  m_thread_id : Int
  m_appl_id : Int
  m_read : Bool
  m_req : Option MemReq
  m_priority : Int
  m_size : Nat
  m_timestamp : Nat
  m_scheduled : Nat
  deriving DecidableEq, Repr

/-- The `dram_controller_c::dram_req_priority` (`dram.cc:59`): all zero. -/
def dramReqPriority (_t : ReqType) : Int := 0

/-- The `drb_entry_s::reset` (`dram.cc:100`).  The object's address (`slot`) is
untouched. -/
def resetEntry (e : DrbEntry) : DrbEntry :=
  { slot := e.slot
    m_id := -1
    m_state := DramState.DRAM_INIT
    m_addr := 0
    m_bid := -1
    m_rid := -1
    m_cid := -1
    m_core_id := -1
    m_thread_id := -1
    m_appl_id := -1
    m_read := false
    m_req := none
    m_priority := 0
    m_size := 0
    m_timestamp := 0
    m_scheduled := 0 }

/-- Default request used to totalize reads through the `m_req` pointer; the
source never dereferences a null `m_req` in reachable states. -/
def defaultReq : MemReq :=
  { m_id := 0, m_addr := 0, m_size := 0, m_type := ReqType.MRT_IFETCH,
    m_ptx := false, m_state := MemState.MEM_NEW,
    m_core_id := 0, m_thread_id := 0, m_appl_id := 0 }

/-- Dereference an entry's `m_req` pointer. -/
def getReq (e : DrbEntry) : MemReq := e.m_req.getD defaultReq

/-- The `drb_entry_s::set` (`dram.cc:121`).  `uid` is the value drawn from the
process-global `m_unique_id` counter; `now` is `m_simulation_cycle`.  The
`switch` on the request type makes `m_read` false exactly for `MRT_WB`. -/
def entrySet (e : DrbEntry) (req : MemReq) (bid rid cid : Int) (uid : Int)
    (now : Nat) : DrbEntry :=
  { e with
    m_id := uid
    m_addr := req.m_addr
    m_bid := bid
    m_rid := rid
    m_cid := cid
    m_core_id := req.m_core_id
    m_thread_id := req.m_thread_id
    m_appl_id := req.m_appl_id
    m_req := some req
    m_size := req.m_size
    m_timestamp := now
    m_priority := dramReqPriority req.m_type
    m_read := if req.m_type = ReqType.MRT_WB then false else true }

/-- The per-bank state of the controller: `m_buffer`, `m_buffer_free_list`,
`m_current_list`, `m_current_rid` (-1 meaning no open row), `m_bank_ready`,
`m_data_ready`, `m_data_avail` and `m_bank_timestamp`, all at one bank
index. -/
structure Bank where
  pending : List DrbEntry
  free : List DrbEntry
  current : Option DrbEntry
  rid : Int
  bankReady : Nat
  dataReady : Nat
  dataAvail : Nat
  timestamp : Nat
  deriving DecidableEq, Repr

/-- A freshly constructed `drb_entry_s` (`dram.cc:92`): the constructor calls
`reset()`, so the entry carries the reset field values; `i` is its identity. -/
def freshEntry (i : Nat) : DrbEntry :=
  { slot := i
    m_id := -1
    m_state := DramState.DRAM_INIT
    m_addr := 0
    m_bid := -1
    m_rid := -1
    m_cid := -1
    m_core_id := -1
    m_thread_id := -1
    m_appl_id := -1
    m_read := false
    m_req := none
    m_priority := 0
    m_size := 0
    m_timestamp := 0
    m_scheduled := 0 }

instance : Inhabited DrbEntry := ⟨freshEntry 0⟩

instance : Inhabited Bank :=
  ⟨{ pending := [], free := [], current := none, rid := -1,
     bankReady := ullongMax, dataReady := ullongMax, dataAvail := ullongMax,
     timestamp := 0 }⟩

/-- A bank as the constructor (`dram.cc:173`) leaves it: `size` fresh
entries in the free list, nothing pending, no current entry. -/
def initBank (size : Nat) : Bank :=
  { pending := []
    free := (List.range size).map freshEntry
    current := none
    rid := -1
    bankReady := ullongMax
    dataReady := ullongMax
    dataAvail := ullongMax
    timestamp := 0 }

/-- The `std::list<drb_entry_s*>::remove(e)`: drop the elements equal to the
pointer `e`, i.e. those with `e`'s slot. -/
def removeEntry (l : List DrbEntry) (e : DrbEntry) : List DrbEntry :=
  l.filter (fun x => decide (x.slot ≠ e.slot))

/-! ### Address decoding (`dram.cc:199`, `dram.cc:246`) -/

/-- The `log2_int` of `utils.h`.  Modelled from the spec: the source file defining
it is not part of this repository snapshot; on the powers of two it is applied
to it is the base-2 logarithm, which `Nat.log2` computes. -/
def log2_int (n : Nat) : Nat := Nat.log2 n

/-- The `N_BIT_MASK(n)` of `utils.h`.  Modelled from the spec: a mask of the low
`n` bits. -/
def nBitMask (n : Nat) : Nat := 2 ^ n - 1

/-- The configuration knobs that feed address decoding. -/
structure DramCfg where
  rowbufferSize : Nat
  numBanks : Nat
  l3LineSize : Nat
  xorKnob : Bool

/-- The `m_cid_mask` (`dram.cc:199`). -/
def DramCfg.cidMask (c : DramCfg) : Nat := nBitMask (log2_int c.rowbufferSize)

/-- The `m_bid_shift` (`dram.cc:200`). -/
def DramCfg.bidShift (c : DramCfg) : Nat := log2_int c.rowbufferSize

/-- The `m_bid_mask` (`dram.cc:201`). -/
def DramCfg.bidMask (c : DramCfg) : Nat := nBitMask (log2_int c.numBanks)

/-- The `m_rid_shift` (`dram.cc:202`). -/
def DramCfg.ridShift (c : DramCfg) : Nat := log2_int c.numBanks

/-- The `m_bid_xor_shift` (`dram.cc:203`). -/
def DramCfg.bidXorShift (c : DramCfg) : Nat :=
  log2_int c.l3LineSize + log2_int 512

/-- The address-parsing prefix of `insert_new_req` (`dram.cc:248`):
returns `(cid, bid, rid)` with the XOR permutation applied to `bid` when
`KNOB_DRAM_BANK_XOR_INDEX` is set. -/
def decodeAddr (c : DramCfg) (addr : Nat) : Nat × Nat × Nat :=
  let bid_xor := (addr >>> c.bidXorShift) &&& c.bidMask
  let cid := addr &&& c.cidMask
  let addr1 := addr >>> c.bidShift
  let bid0 := addr1 &&& c.bidMask
  let addr2 := addr1 >>> c.ridShift
  let rid := addr2
  let bid := if c.xorKnob then bid0 ^^^ bid_xor else bid0
  (cid, bid, rid)

/-! ### Ingress: prefetch flush and request insertion (`dram.cc:246-321`) -/

/-- The body of the second loop of `flush_prefetch` (`dram.cc:299`): free the
entry's request, return the entry to the free list, unlink it from the pending
list and decrement `m_total_req`.  The accumulator carries the bank, the
requests returned to the external pool and `m_total_req`. -/
def flushStep (acc : Bank × List MemReq × Int) (e : DrbEntry) :
    Bank × List MemReq × Int :=
  ({ acc.1 with
      free := acc.1.free ++ [e]
      pending := removeEntry acc.1.pending e },
   acc.2.1 ++ [getReq e], acc.2.2 - 1)

/-- The `dram_controller_c::flush_prefetch` (`dram.cc:290`): collect the pending
entries whose request type is `MRT_DPRF`, then move each of them to the free
list, returning the underlying requests to the external pool. -/
def flushPrefetch (b : Bank) (total : Int) : Bank × List MemReq × Int :=
  let done := b.pending.filter (fun e => decide ((getReq e).m_type = ReqType.MRT_DPRF))
  done.foldl flushStep (b, [], total)

/-- The `dram_controller_c::insert_req_in_drb` (`dram.cc:309`): take the front
free entry, populate it and append it to the pending list.  The free list is
nonempty whenever the source reaches this call. -/
def insertReqInDrb (b : Bank) (req : MemReq) (bid rid cid : Int) (uid : Int)
    (now : Nat) : Bank :=
  match b.free with
  | [] => b
  | e :: rest =>
      { b with
        free := rest
        pending := b.pending ++ [entrySet e req bid rid cid uid now] }

/-- Result of `insert_new_req` on the decoded bank: the return value, the
updated bank, the requests returned to the pool by the prefetch flush,
the updated `m_total_req`, and the request's updated lifecycle state. -/
structure InsertResult where
  ok : Bool
  bank : Bank
  freed : List MemReq
  total : Int
  reqState : MemState
  deriving Repr

/-- The buffer-management part of `dram_controller_c::insert_new_req`
(`dram.cc:264-285`), acting on the bank selected by address decoding: if the
bank's free list is empty, flush prefetches; if it is still empty, fail;
otherwise insert the request, increment `m_total_req` and mark the request
`MEM_DRAM_START`. -/
def insertNewReq (b : Bank) (req : MemReq) (bid rid cid : Int) (uid : Int)
    (now : Nat) (total : Int) : InsertResult :=
  let flushed := if b.free.isEmpty then flushPrefetch b total else (b, [], total)
  let b1 := flushed.1
  if b1.free.isEmpty then
    { ok := false, bank := b1, freed := flushed.2.1, total := flushed.2.2,
      reqState := req.m_state }
  else
    -- the entry stores the same request object that line 281 marks
    -- MEM_DRAM_START, so the stored request carries that state
    { ok := true
      bank := insertReqInDrb b1 { req with m_state := MemState.MEM_DRAM_START }
        bid rid cid uid now
      freed := flushed.2.1
      total := flushed.2.2 + 1
      reqState := MemState.MEM_DRAM_START }

/-! ### Scheduling policies (`dram.cc:595`, `dram.cc:804-840`) -/

/-- The `dram_controller_c::schedule` (`dram.cc:595`), the FCFS policy: leave the
buffer as it is and take the front.  Modelled as the list the buffer holds
when `front()` is read. -/
def fcfsSortedBuffer (buffer : List DrbEntry) : List DrbEntry := buffer

/-- The `dc_frfcfs_c::sort_func::operator()` (`dram.cc:804`): the strict
comparator used by FR-FCFS.  `currentRid` is `m_current_rid[req_a->m_bid]`,
the open row of the (shared) bank of the compared entries. -/
def sortFunc (currentRid : Int) (a b : DrbEntry) : Bool :=
  if (getReq a).m_type ≠ ReqType.MRT_DPRF ∧ (getReq b).m_type = ReqType.MRT_DPRF then
    true
  else if (getReq a).m_type = ReqType.MRT_DPRF ∧ (getReq b).m_type ≠ ReqType.MRT_DPRF then
    false
  else if a.m_rid = currentRid ∧ b.m_rid ≠ currentRid then
    true
  else if a.m_rid ≠ currentRid ∧ b.m_rid = currentRid then
    false
  else
    decide (a.m_timestamp < b.m_timestamp)

/-- The `dc_frfcfs_c::schedule` (`dram.cc:835`): `buffer->sort(*m_sort)` followed
by `front()`.  `std::list::sort` with a strict comparator `lt` is the stable
sort keeping `a` ahead of `b` when `lt b a` fails, which is `mergeSort` with
`le a b := not (lt b a)`. -/
def frfcfsSortedBuffer (currentRid : Int) (buffer : List DrbEntry) : List DrbEntry :=
  buffer.mergeSort (fun a b => !(sortFunc currentRid b a))

/-- The `schedule` returns `buffer->front()` of the (possibly sorted) buffer. -/
def scheduleFront (sortedBuffer : List DrbEntry) : Option DrbEntry :=
  sortedBuffer.head?

/-! ### Bank scheduling: new selection and re-arming (`dram.cc:557`) -/

/-- The `dram_controller_c::bank_schedule_new` (`dram.cc:557`) at one bank.
`sorted` abstracts the policy: it is the buffer contents after `schedule`
ran (`fcfsSortedBuffer` or `frfcfsSortedBuffer`); the selected entry is its
front, and the removal happens on the sorted buffer. -/
def bankScheduleNew1 (sorted : List DrbEntry → List DrbEntry) (now : Nat)
    (b : Bank) : Bank :=
  if b.pending.isEmpty ∧ b.current.isNone then b
  else
    match b.current with
    | none =>
        match (sorted b.pending).head? with
        | none => b
        | some entry =>
            { b with
              current := some { entry with m_state := DramState.DRAM_CMD,
                                           m_scheduled := now }
              pending := removeEntry (sorted b.pending) entry
              bankReady := ullongMax
              timestamp := now }
    | some cur =>
        if b.bankReady ≤ now ∧ cur.m_state = DramState.DRAM_CMD_WAIT then
          { b with
            bankReady := ullongMax
            current := some { cur with m_state := DramState.DRAM_CMD }
            timestamp := now }
        else b

/-! ### Channel command scheduling (`dram.cc:619`) -/

/-- The pre-scaled command latencies of the constructor (`dram.cc:208-217`). -/
structure Latencies where
  prechargeCpu : Nat
  activateCpu : Nat
  columnCpu : Nat
  prechargeGpu : Nat
  activateGpu : Nat
  columnGpu : Nat
  deriving Repr

/-- The DRAM sub-command issued by `channel_schedule_cmd`, observable in the
source through the `DRAM_ACTIVATE` / `DRAM_COLUMN` / `DRAM_PRECHARGE`
statistics events. -/
inductive DramCmd where
  | activate
  | column
  | precharge
  deriving DecidableEq, Repr

/-- The body of `if (bank != -1)` in `channel_schedule_cmd` (`dram.cc:633`):
issue an ACTIVATE, COLUMN or PRECHARGE for the bank's current entry. -/
def cmdIssue (lat : Latencies) (now : Nat) (b : Bank) : Bank × Option DramCmd :=
  match b.current with
  | none => (b, none)
  | some e =>
      let e0 := { e with m_req := some { getReq e with m_state := MemState.MEM_DRAM_CMD } }
      if b.rid = -1 then
        ({ b with
            rid := e0.m_rid
            bankReady := now + (if (getReq e0).m_ptx then lat.activateGpu else lat.activateCpu)
            dataAvail := ullongMax
            current := some { e0 with m_state := DramState.DRAM_CMD_WAIT } },
         some DramCmd.activate)
      else if e0.m_rid = b.rid then
        let br := now + (if (getReq e0).m_ptx then lat.columnGpu else lat.columnCpu)
        ({ b with
            bankReady := br
            dataAvail := br
            current := some { e0 with m_state := DramState.DRAM_DATA } },
         some DramCmd.column)
      else
        ({ b with
            rid := -1
            bankReady := now + (if (getReq e0).m_ptx then lat.prechargeGpu else lat.prechargeCpu)
            dataAvail := ullongMax
            current := some { e0 with m_state := DramState.DRAM_CMD_WAIT } },
         some DramCmd.precharge)

/-- A bank is eligible for a command when it has a current entry in state
`DRAM_CMD` (`dram.cc:625-626`). -/
def cmdEligible (b : Bank) : Bool :=
  match b.current with
  | some e => decide (e.m_state = DramState.DRAM_CMD)
  | none => false

/-- The selection loop of `channel_schedule_cmd` (`dram.cc:622-631`) over the
banks of one channel: the eligible bank with the strictly smallest
`m_bank_timestamp`, first index winning ties, starting from `oldest =
ULLONG_MAX`. -/
def selectCmdAux : List Bank → Nat → Nat → Option Nat → Option Nat
  | [], _, _, best => best
  | b :: rest, idx, oldest, best =>
      if cmdEligible b ∧ b.timestamp < oldest then
        selectCmdAux rest (idx + 1) b.timestamp (some idx)
      else
        selectCmdAux rest (idx + 1) oldest best

/-- The bank index selected by `channel_schedule_cmd` on one channel. -/
def selectCmdBank (banks : List Bank) : Option Nat :=
  selectCmdAux banks 0 ullongMax none

/-- The `dram_controller_c::channel_schedule_cmd` (`dram.cc:619`) for one
channel: select the oldest command-ready bank and issue its sub-command. -/
def channelScheduleCmd (lat : Latencies) (now : Nat) (banks : List Bank) :
    List Bank × Option (Nat × DramCmd) :=
  match selectCmdBank banks with
  | none => (banks, none)
  | some j =>
      let issued := cmdIssue lat now (banks.getD j default)
      (banks.set j issued.1,
       match issued.2 with
       | some c => some (j, c)
       | none => none)

/-! ### Bank completion with merging (`dram.cc:404-492`) -/

/-- The running state of the merge loop of `bank_schedule_complete`
(`dram.cc:417-440`): `temp` is `temp_list`, `needStop` is `need_to_stop`,
`freed` collects requests given back to the pool, `sent` collects requests
accepted by the NoC (each already marked `MEM_DRAM_DONE`), `numC` is
`m_num_completed_in_last_cycle`, and `k` counts `send_packet` calls so that
`noc k` is the NoC's answer to the `k`-th send attempt. -/
structure MergeSt where
  temp : List DrbEntry
  needStop : Bool
  freed : List MemReq
  sent : List MemReq
  numC : Nat
  k : Nat
  deriving Repr

/-- The merge loop of `bank_schedule_complete` (`dram.cc:418-440`): scan the
pending list; for each entry whose address equals the current entry's
address, free it (writeback) or send it (other types); a refused send sets
`need_to_stop` and skips the entry, otherwise the entry joins `temp_list`
and the completion flag is set to the cycle number. -/
def mergeScan (noc : Nat → Bool) (now : Nat) (caddr : Nat) :
    List DrbEntry → MergeSt → MergeSt
  | [], st => st
  | e :: rest, st =>
      if e.m_addr = caddr then
        if (getReq e).m_type = ReqType.MRT_WB then
          mergeScan noc now caddr rest
            { st with temp := st.temp ++ [e], freed := st.freed ++ [getReq e],
                      numC := now }
        else
          if noc st.k then
            mergeScan noc now caddr rest
              { st with
                temp := st.temp ++
                  [{ e with m_req := some { getReq e with m_state := MemState.MEM_DRAM_DONE } }]
                sent := st.sent ++ [{ getReq e with m_state := MemState.MEM_DRAM_DONE }]
                numC := now
                k := st.k + 1 }
          else
            mergeScan noc now caddr rest
              { st with needStop := true, k := st.k + 1 }
      else
        mergeScan noc now caddr rest st

/-- The removal loop of `bank_schedule_complete` (`dram.cc:442-448`): each
`temp_list` entry is reset, returned to the free list and unlinked from the
pending list, and `m_total_req` is decremented. -/
def removePass (b : Bank) (total : Int) (temp : List DrbEntry) : Bank × Int :=
  temp.foldl
    (fun acc e =>
      ({ acc.1 with
          free := acc.1.free ++ [resetEntry e]
          pending := removeEntry acc.1.pending e },
       acc.2 - 1))
    (b, total)

/-- The epilogue of a successful primary completion (`dram.cc:484-489`):
reset the current entry, return it to the free list, clear the current slot
and push `m_data_ready` back to infinity. -/
def completeEpilogue (b : Bank) (cur : DrbEntry) : Bank :=
  { b with
    free := b.free ++ [resetEntry cur]
    current := none
    dataReady := ullongMax }

/-- The observable state threaded through `bank_schedule_complete` for one
bank: the bank itself, `m_total_req`, `m_num_completed_in_last_cycle`, the
send-attempt counter, the requests returned to the pool and the requests
accepted by the NoC. -/
structure CompleteSt where
  bank : Bank
  total : Int
  numC : Nat
  k : Nat
  freed : List MemReq
  sent : List MemReq
  deriving Repr

/-- The merge phase of `bank_schedule_complete` (`dram.cc:416-440`): run the
merge scan when `KNOB_DRAM_MERGE_REQUESTS` is set, starting from an empty
`temp_list` and a clear `need_to_stop` flag. -/
def mergePhase (mergeKnob : Bool) (noc : Nat → Bool) (now : Nat) (caddr : Nat)
    (pending : List DrbEntry) (s : CompleteSt) : MergeSt :=
  if mergeKnob then
    mergeScan noc now caddr pending
      { temp := [], needStop := false, freed := s.freed, sent := s.sent,
        numC := s.numC, k := s.k }
  else
    { temp := [], needStop := false, freed := s.freed, sent := s.sent,
      numC := s.numC, k := s.k }

/-- The tail of `bank_schedule_complete` (`dram.cc:442-490`): unlink the
`temp_list` entries, then — unless a merge send was refused (`dram.cc:453`) —
complete the current entry: a writeback is freed (`dram.cc:465`), any other
request is sent to the NoC (`dram.cc:474`), and a refused send leaves the
entry current for a retry next tick. -/
def completeTail (noc : Nat → Bool) (now : Nat) (cur : DrbEntry) (ms : MergeSt)
    (b : Bank) (total : Int) : CompleteSt :=
  let removed := removePass b total ms.temp
  if ms.needStop then
    { bank := removed.1, total := removed.2, numC := ms.numC, k := ms.k,
      freed := ms.freed, sent := ms.sent }
  else if (getReq cur).m_type = ReqType.MRT_WB then
    { bank := completeEpilogue removed.1 cur, total := removed.2 - 1,
      numC := ms.numC + 1, k := ms.k,
      freed := ms.freed ++ [getReq cur], sent := ms.sent }
  else if noc ms.k then
    { bank := completeEpilogue removed.1 cur, total := removed.2 - 1,
      numC := ms.numC + 1, k := ms.k + 1,
      freed := ms.freed,
      sent := ms.sent ++ [{ getReq cur with m_state := MemState.MEM_DRAM_DONE }] }
  else
    { bank := removed.1, total := removed.2, numC := ms.numC, k := ms.k + 1,
      freed := ms.freed, sent := ms.sent }

/-- The `dram_controller_c::bank_schedule_complete` (`dram.cc:404`) at one bank:
if the bank's data became ready, run the merge phase and then the completion
tail; `now` is `m_simulation_cycle`. -/
def bankScheduleComplete1 (mergeKnob : Bool) (noc : Nat → Bool) (now : Nat)
    (s : CompleteSt) : CompleteSt :=
  match s.bank.current with
  | none => s
  | some cur =>
      if s.bank.dataReady ≤ now then
        completeTail noc now cur
          (mergePhase mergeKnob noc now cur.m_addr s.bank.pending s) s.bank s.total
      else s

/-! ### Data bus (`dram.cc:722-759`) -/

/-- Per-channel data-bus state: `m_byte_avail` and `m_dbus_ready`
(`dram.cc:189-195`).  `m_byte_avail` is an `int` in the source; it stays
positive (see the C10 theorem), so it is carried as a natural number. -/
structure Channel where
  byteAvail : Nat
  dbusReady : Nat
  deriving DecidableEq, Repr

/-- A channel as the constructor (`dram.cc:192`) leaves it. -/
def initChannel (busWidth : Nat) : Channel :=
  { byteAvail := busWidth, dbusReady := 0 }

/-- The `static_cast<int>(cycle * ratio + 0.5)` (`dram.cc:748`): the DRAM-cycle
count converted to host cycles with the frequency ratio.  The `double` ratio
is modelled as a rational; the cast truncates, which on these nonnegative
values is the floor. -/
def dramToHost (ratio : ℚ) (cycle : Nat) : Nat :=
  (⌊(cycle : ℚ) * ratio + 1 / 2⌋).toNat

/-- The `dram_controller_c::acquire_data_bus` (`dram.cc:732`): returns the
updated channel and the release cycle (`latency`).  `m_dbus_ready` is set to
the release cycle in both branches. -/
def acquireDataBus (busWidth : Nat) (ratioCpu ratioGpu : ℚ) (now : Nat)
    (ch : Channel) (reqSize : Nat) (gpuReq : Bool) : Channel × Nat :=
  if reqSize < ch.byteAvail then
    ({ byteAvail := ch.byteAvail - reqSize, dbusReady := now }, now)
  else
    let cycle := (reqSize - ch.byteAvail) / busWidth + 1
    let dramCycle := dramToHost (if gpuReq then ratioGpu else ratioCpu) cycle
    let latency := now + dramCycle
    ({ byteAvail := busWidth - (reqSize - ch.byteAvail) % busWidth,
       dbusReady := latency }, latency)

/-! ### Starvation watchdog (`dram.cc:345`) -/

/-- The `dram_controller_c::progress_check` (`dram.cc:345`): update
`m_starvation_cycle` from `m_total_req` and
`m_num_completed_in_last_cycle`, and report whether the controller dumps its
state and aborts (`print_req(); ASSERT(0)`). -/
def progressCheck (totalReq : Int) (numCompleted : Nat) (starv : Nat) :
    Nat × Bool :=
  let s := if 0 < totalReq ∧ numCompleted = 0 then starv + 1 else 0
  (s, decide (5000 ≤ s))

/-- Iterated watchdog over a sequence of ticks, each tick contributing its
`(m_total_req, m_num_completed_in_last_cycle)` pair; the abort flag is
sticky. -/
def starvationRun (ticks : List (Int × Nat)) (starv : Nat) (aborted : Bool) :
    Nat × Bool :=
  ticks.foldl
    (fun acc t =>
      let step := progressCheck t.1 t.2 acc.1
      (step.1, acc.2 || step.2))
    (starv, aborted)

/-! ### Concrete example data used by the claims -/

/-- A non-prefetch entry for row 4 queued at cycle 1 (the `row=R'`, `t=1`
entry of the FR-FCFS example). -/
def exMissEntry : DrbEntry :=
  { freshEntry 1 with m_rid := 4, m_timestamp := 1, m_req := some defaultReq }

/-- A non-prefetch entry for the open row 5 queued at cycle 2 (the `row=R`,
`t=2` entry of the FR-FCFS example). -/
def exHitEntry : DrbEntry :=
  { freshEntry 2 with m_rid := 5, m_timestamp := 2, m_req := some defaultReq }

/-- Requests of the merge-completion scenario: three data fetches to the same
address 100. -/
def c6req0 : MemReq :=
  { defaultReq with m_id := 10, m_addr := 100, m_type := ReqType.MRT_DFETCH }

/-- Second same-address fetch. -/
def c6req1 : MemReq :=
  { defaultReq with m_id := 11, m_addr := 100, m_type := ReqType.MRT_DFETCH }

/-- Third same-address fetch. -/
def c6req2 : MemReq :=
  { defaultReq with m_id := 12, m_addr := 100, m_type := ReqType.MRT_DFETCH }

/-- The completing current entry of the merge scenario. -/
def c6cur : DrbEntry :=
  { freshEntry 0 with
    m_addr := 100
    m_state := DramState.DRAM_DATA_WAIT
    m_req := some c6req0 }

/-- First same-address merge candidate (its send will be refused). -/
def c6e1 : DrbEntry :=
  { freshEntry 1 with m_addr := 100, m_req := some c6req1 }

/-- Second same-address merge candidate (its send will be accepted). -/
def c6e2 : DrbEntry :=
  { freshEntry 2 with m_addr := 100, m_req := some c6req2 }

/-- NoC answers of the merge scenario: refuse the first send attempt, accept
the second. -/
def c6noc : Nat → Bool := fun k => k == 1

/-- The bank of the merge scenario: data ready, two same-address candidates
pending. -/
def c6bank : Bank :=
  { pending := [c6e1, c6e2], free := [], current := some c6cur, rid := 5,
    bankReady := ullongMax, dataReady := 0, dataAvail := ullongMax,
    timestamp := 0 }

/-- The completion-pass state of the merge scenario. -/
def c6st : CompleteSt :=
  { bank := c6bank, total := 3, numC := 0, k := 0, freed := [], sent := [] }

/-- A request for the command-issue scenario. -/
def c9req : MemReq := { defaultReq with m_addr := 100 }

/-- A current entry in state `DRAM_CMD` for the command-issue scenario. -/
def c9entry : DrbEntry :=
  { freshEntry 0 with
    m_state := DramState.DRAM_CMD
    m_rid := 7
    m_req := some c9req }

/-- A bank with no open row whose `m_bank_timestamp` is 3, eligible for a
command. -/
def c9bank : Bank :=
  { pending := [], free := [], current := some c9entry, rid := -1,
    bankReady := ullongMax, dataReady := ullongMax, dataAvail := ullongMax,
    timestamp := 3 }

/-- Latencies for the command-issue scenario. -/
def c9lat : Latencies :=
  { prechargeCpu := 10, activateCpu := 12, columnCpu := 5,
    prechargeGpu := 20, activateGpu := 24, columnGpu := 10 }

/-! ### Slot accounting

An entry object lives in exactly one of: the bank's free list, its pending
list, or its current slot.  The multiset of slots over the three places is
the observable that buffer conservation speaks about. -/

/-- All entry identities (object addresses) held by a bank, in list form. -/
def bankSlotsList (b : Bank) : List Nat :=
  b.free.map (·.slot) ++ b.pending.map (·.slot) ++ b.current.toList.map (·.slot)

/-- All entry identities held by a bank, as a multiset. -/
def bankSlots (b : Bank) : Multiset Nat := (bankSlotsList b : Multiset Nat)

/-- The `|free| + |pending| + (1 if current else 0)`. -/
def bankCount (b : Bank) : Nat :=
  b.free.length + b.pending.length + (if b.current.isSome then 1 else 0)

lemma bankCount_eq_length (b : Bank) : bankCount b = (bankSlotsList b).length := by
  cases h : b.current <;> simp [bankCount, bankSlotsList, h] <;> omega

lemma bankCount_eq_card (b : Bank) : bankCount b = Multiset.card (bankSlots b) := by
  simp [bankSlots, bankCount_eq_length]

lemma flush_foldl_eq (done : List DrbEntry) :
    ∀ (b : Bank) (freed : List MemReq) (total : Int),
      done.foldl flushStep (b, freed, total) =
        ({ b with free := b.free ++ done,
                  pending := b.pending.filter
                    (fun x => decide (x.slot ∉ done.map (·.slot))) },
         freed ++ done.map getReq, total - done.length) := by
  induction done with
  | nil =>
      intro b freed total
      simp [flushStep]
  | cons e rest ih =>
      intro b freed total
      have hpred : (fun a : DrbEntry =>
            decide (a.slot ∉ rest.map (fun x => x.slot)) && decide (a.slot ≠ e.slot)) =
          (fun x : DrbEntry => decide (x.slot ∉ (e :: rest).map (fun x => x.slot))) := by
        funext x
        by_cases h1 : x.slot = e.slot <;>
          by_cases h2 : x.slot ∈ rest.map (fun x => x.slot) <;>
            simp [h1, h2, List.mem_cons]
      simp only [List.foldl_cons, flushStep, removeEntry]
      rw [ih]
      simp only [List.filter_filter, hpred, Prod.mk.injEq, Bank.mk.injEq,
        List.append_assoc, List.singleton_append, List.map_cons, List.length_cons,
        true_and, and_true]
      push_cast
      omega

lemma removePass_eq (temp : List DrbEntry) :
    ∀ (b : Bank) (total : Int),
      removePass b total temp =
        ({ b with free := b.free ++ temp.map resetEntry,
                  pending := b.pending.filter
                    (fun x => decide (x.slot ∉ temp.map (·.slot))) },
         total - temp.length) := by
  induction temp with
  | nil =>
      intro b total
      simp [removePass]
  | cons e rest ih =>
      intro b total
      have hpred : (fun a : DrbEntry =>
            decide (a.slot ∉ rest.map (fun x => x.slot)) && decide (a.slot ≠ e.slot)) =
          (fun x : DrbEntry => decide (x.slot ∉ (e :: rest).map (fun x => x.slot))) := by
        funext x
        by_cases h1 : x.slot = e.slot <;>
          by_cases h2 : x.slot ∈ rest.map (fun x => x.slot) <;>
            simp [h1, h2, List.mem_cons]
      have step : removePass b total (e :: rest) =
          removePass { b with free := b.free ++ [resetEntry e],
                              pending := removeEntry b.pending e } (total - 1) rest := by
        simp [removePass]
      rw [step, ih]
      simp only [removeEntry, List.filter_filter, hpred, Prod.mk.injEq, Bank.mk.injEq,
        List.append_assoc, List.singleton_append, List.map_cons, List.length_cons,
        true_and, and_true]
      push_cast
      omega

lemma resetEntry_slot (e : DrbEntry) : (resetEntry e).slot = e.slot := rfl

lemma map_slot_filter (q : Nat → Bool) (l : List DrbEntry) :
    (l.filter (fun x => q x.slot)).map (fun x => x.slot) =
      (l.map (fun x => x.slot)).filter q := by
  induction l with
  | nil => rfl
  | cons e rest ih => by_cases h : q e.slot <;> simp [h, ih]

lemma slot_mem_filter_iff {p : DrbEntry → Bool} {l : List DrbEntry}
    (hnd : (l.map (fun x => x.slot)).Nodup) {x : DrbEntry} (hx : x ∈ l) :
    x.slot ∈ (l.filter p).map (fun y => y.slot) ↔ p x = true := by
  constructor
  · intro h
    rcases List.mem_map.1 h with ⟨y, hy, hslot⟩
    have hyl : y ∈ l := (List.mem_filter.1 hy).1
    have hyx : y = x := List.inj_on_of_nodup_map hnd hyl hx hslot
    have := (List.mem_filter.1 hy).2
    rwa [hyx] at this
  · intro hp
    exact List.mem_map_of_mem _ (List.mem_filter.2 ⟨hx, hp⟩)

/-- The net effect of `flush_prefetch` on a bank with duplicate-free entry
identities: the `MRT_DPRF` entries move from the pending list to the free
list, their requests go back to the pool, `m_total_req` drops by their
number. -/
lemma flushPrefetch_spec (b : Bank) (total : Int)
    (hnd : (b.pending.map (fun x => x.slot)).Nodup) :
    flushPrefetch b total =
      ({ b with
          free := b.free ++
            b.pending.filter (fun e => decide ((getReq e).m_type = ReqType.MRT_DPRF))
          pending := b.pending.filter
            (fun e => !decide ((getReq e).m_type = ReqType.MRT_DPRF)) },
       (b.pending.filter (fun e => decide ((getReq e).m_type = ReqType.MRT_DPRF))).map getReq,
       total - (b.pending.filter
         (fun e => decide ((getReq e).m_type = ReqType.MRT_DPRF))).length) := by
  unfold flushPrefetch
  rw [flush_foldl_eq]
  have hfilter : b.pending.filter (fun x => decide (x.slot ∉
        (b.pending.filter
          (fun e => decide ((getReq e).m_type = ReqType.MRT_DPRF))).map (fun x => x.slot))) =
      b.pending.filter (fun e => !decide ((getReq e).m_type = ReqType.MRT_DPRF)) := by
    refine List.filter_congr (fun x hx => ?_)
    have hmem := slot_mem_filter_iff
      (p := fun e => decide ((getReq e).m_type = ReqType.MRT_DPRF)) hnd hx
    cases h : decide ((getReq x).m_type = ReqType.MRT_DPRF) <;> simp_all
  rw [hfilter]
  simp

/-- Each entry the merge loop queues for removal comes from the scanned list
and matches the completing address; the queued identities form a sublist of
the scanned identities. -/
lemma mergeScan_temp_shape (noc : Nat → Bool) (now caddr : Nat) :
    ∀ (l : List DrbEntry) (st : MergeSt),
      ∃ t, (mergeScan noc now caddr l st).temp = st.temp ++ t ∧
        (t.map (fun x => x.slot)).Sublist (l.map (fun x => x.slot)) ∧
        ∀ x ∈ t, ∃ e ∈ l, x.slot = e.slot ∧ e.m_addr = caddr := by
  intro l
  induction l with
  | nil =>
      intro st
      exact ⟨[], by simp [mergeScan], by simp, by simp⟩
  | cons e rest ih =>
      intro st
      by_cases ha : e.m_addr = caddr
      · by_cases hwb : (getReq e).m_type = ReqType.MRT_WB
        · have hstep : mergeScan noc now caddr (e :: rest) st =
              mergeScan noc now caddr rest
                { st with temp := st.temp ++ [e],
                          freed := st.freed ++ [getReq e], numC := now } := by
            simp [mergeScan, ha, hwb]
          rcases ih
            { st with temp := st.temp ++ [e],
                      freed := st.freed ++ [getReq e], numC := now } with ⟨t, ht, hsub, hsrc⟩
          refine ⟨e :: t, ?_, ?_, ?_⟩
          · rw [hstep, ht]; simp
          · simpa using hsub.cons₂ e.slot
          · intro x hx
            rcases List.mem_cons.1 hx with rfl | hx
            · exact ⟨x, List.mem_cons_self _ _, rfl, ha⟩
            · rcases hsrc x hx with ⟨e', he', hs, haddr⟩
              exact ⟨e', List.mem_cons_of_mem _ he', hs, haddr⟩
        · by_cases hn : noc st.k
          · have hstep : mergeScan noc now caddr (e :: rest) st =
                mergeScan noc now caddr rest
                  { st with
                    temp := st.temp ++
                      [{ e with m_req := some { getReq e with
                           m_state := MemState.MEM_DRAM_DONE } }]
                    sent := st.sent ++ [{ getReq e with m_state := MemState.MEM_DRAM_DONE }]
                    numC := now
                    k := st.k + 1 } := by
              simp [mergeScan, ha, hwb, hn]
            rcases ih
              { st with
                temp := st.temp ++
                  [{ e with m_req := some { getReq e with m_state := MemState.MEM_DRAM_DONE } }]
                sent := st.sent ++ [{ getReq e with m_state := MemState.MEM_DRAM_DONE }]
                numC := now
                k := st.k + 1 } with ⟨t, ht, hsub, hsrc⟩
            refine ⟨{ e with m_req := some { getReq e with
              m_state := MemState.MEM_DRAM_DONE } } :: t, ?_, ?_, ?_⟩
            · rw [hstep, ht]; simp
            · simpa using hsub.cons₂ e.slot
            · intro x hx
              rcases List.mem_cons.1 hx with rfl | hx
              · exact ⟨e, List.mem_cons_self _ _, rfl, ha⟩
              · rcases hsrc x hx with ⟨e', he', hs, haddr⟩
                exact ⟨e', List.mem_cons_of_mem _ he', hs, haddr⟩
          · have hstep : mergeScan noc now caddr (e :: rest) st =
                mergeScan noc now caddr rest
                  { st with needStop := true, k := st.k + 1 } := by
              simp [mergeScan, ha, hwb, hn]
            rcases ih { st with needStop := true, k := st.k + 1 } with ⟨t, ht, hsub, hsrc⟩
            refine ⟨t, ?_, hsub.cons _, ?_⟩
            · rw [hstep, ht]
            · intro x hx
              rcases hsrc x hx with ⟨e', he', hs, haddr⟩
              exact ⟨e', List.mem_cons_of_mem _ he', hs, haddr⟩
      · have hstep : mergeScan noc now caddr (e :: rest) st =
            mergeScan noc now caddr rest st := by
          simp [mergeScan, ha]
        rcases ih st with ⟨t, ht, hsub, hsrc⟩
        refine ⟨t, ?_, hsub.cons _, ?_⟩
        · rw [hstep, ht]
        · intro x hx
          rcases hsrc x hx with ⟨e', he', hs, haddr⟩
          exact ⟨e', List.mem_cons_of_mem _ he', hs, haddr⟩

/-- When the NoC refuses every send, the only entries the merge loop queues
for removal are the address-matching writebacks. -/
lemma mergeScan_refused (now caddr : Nat) :
    ∀ (l : List DrbEntry) (st : MergeSt),
      (mergeScan (fun _ => false) now caddr l st).temp =
        st.temp ++ l.filter (fun e => decide (e.m_addr = caddr) &&
          decide ((getReq e).m_type = ReqType.MRT_WB)) := by
  intro l
  induction l with
  | nil => intro st; simp [mergeScan]
  | cons e rest ih =>
      intro st
      by_cases ha : e.m_addr = caddr
      · by_cases hwb : (getReq e).m_type = ReqType.MRT_WB
        · have hstep : mergeScan (fun _ => false) now caddr (e :: rest) st =
              mergeScan (fun _ => false) now caddr rest
                { st with temp := st.temp ++ [e],
                          freed := st.freed ++ [getReq e], numC := now } := by
            simp [mergeScan, ha, hwb]
          rw [hstep, ih]
          simp [ha, hwb]
        · have hstep : mergeScan (fun _ => false) now caddr (e :: rest) st =
              mergeScan (fun _ => false) now caddr rest
                { st with needStop := true, k := st.k + 1 } := by
            simp [mergeScan, ha, hwb]
          rw [hstep, ih]
          simp [ha, hwb]
      · have hstep : mergeScan (fun _ => false) now caddr (e :: rest) st =
            mergeScan (fun _ => false) now caddr rest st := by
          simp [mergeScan, ha]
        rw [hstep, ih]
        simp [ha]

/-- Splitting a duplicate-free list along a sublist of its elements is a
permutation. -/
lemma sublist_filter_perm {P S : List Nat} (hnd : P.Nodup) (hsub : S.Sublist P) :
    (S ++ P.filter (fun x => decide (x ∉ S))).Perm P := by
  have h1 : (P.filter (fun x => decide (x ∈ S))).Perm S := by
    refine (List.perm_ext_iff_of_nodup (hnd.filter _) (hsub.nodup hnd)).2 (fun a => ?_)
    simp only [List.mem_filter, decide_eq_true_eq]
    exact ⟨fun h => h.2, fun h => ⟨hsub.subset h, h⟩⟩
  have h2 := List.filter_append_perm (fun x => decide (x ∈ S)) P
  have h3 : (fun x : Nat => !decide (x ∈ S)) = (fun x : Nat => decide (x ∉ S)) := by
    funext x; simp
  rw [h3] at h2
  exact (h1.symm.append_right _).trans h2

lemma bankSlots_def (b : Bank) :
    bankSlots b = (b.free.map (fun x => x.slot) : Multiset Nat) +
      ((b.pending.map (fun x => x.slot) : List Nat) : Multiset Nat) +
      ((b.current.toList.map (fun x => x.slot) : List Nat) : Multiset Nat) := by
  simp [bankSlots, bankSlotsList, Multiset.coe_add]

lemma pending_nodup_of_bank {b : Bank} (h : (bankSlotsList b).Nodup) :
    (b.pending.map (fun x => x.slot)).Nodup := by
  unfold bankSlotsList at h
  rcases List.nodup_append.1 h with ⟨h1, _, _⟩
  exact (List.nodup_append.1 h1).2.1

lemma bankSlots_insertReqInDrb (b : Bank) (req : MemReq) (bid rid cid uid : Int)
    (now : Nat) :
    bankSlots (insertReqInDrb b req bid rid cid uid now) = bankSlots b := by
  cases hf : b.free with
  | nil => simp [insertReqInDrb, hf]
  | cons e rest =>
      simp only [insertReqInDrb, hf, bankSlots_def, List.map_append, List.map_cons,
        ← Multiset.coe_add, ← Multiset.cons_coe, ← Multiset.singleton_add]
      simp only [entrySet]
      abel

lemma bankSlots_flushPrefetch (b : Bank) (total : Int)
    (hnd : (b.pending.map (fun x => x.slot)).Nodup) :
    bankSlots (flushPrefetch b total).1 = bankSlots b := by
  rw [flushPrefetch_spec b total hnd]
  have hperm : ((b.pending.filter
        (fun e => decide ((getReq e).m_type = ReqType.MRT_DPRF))).map (fun x => x.slot) ++
      (b.pending.filter
        (fun e => !decide ((getReq e).m_type = ReqType.MRT_DPRF))).map (fun x => x.slot)).Perm
      (b.pending.map (fun x => x.slot)) := by
    rw [← List.map_append]
    exact (List.filter_append_perm _ b.pending).map _
  have hcoe := Multiset.coe_eq_coe.2 hperm
  rw [← Multiset.coe_add] at hcoe
  simp only [bankSlots_def, List.map_append, ← Multiset.coe_add]
  rw [← hcoe]
  abel

lemma bankSlots_insertNewReq (b : Bank) (req : MemReq) (bid rid cid uid : Int)
    (now : Nat) (total : Int)
    (hnd : (b.pending.map (fun x => x.slot)).Nodup) :
    bankSlots (insertNewReq b req bid rid cid uid now total).bank = bankSlots b := by
  unfold insertNewReq
  by_cases hfe : b.free.isEmpty
  · simp only [hfe, if_true]
    by_cases h2 : (flushPrefetch b total).1.free.isEmpty
    · simp only [h2, if_true]
      exact bankSlots_flushPrefetch b total hnd
    · simp only [if_neg h2]
      rw [bankSlots_insertReqInDrb]
      exact bankSlots_flushPrefetch b total hnd
  · simp only [hfe, Bool.false_eq_true, if_false]
    exact bankSlots_insertReqInDrb b _ bid rid cid uid now

lemma bankSlots_bankScheduleNew1 (sorted : List DrbEntry → List DrbEntry)
    (hsorted : ∀ l, (sorted l).Perm l) (now : Nat) (b : Bank)
    (hnd : (bankSlotsList b).Nodup) :
    bankSlots (bankScheduleNew1 sorted now b) = bankSlots b := by
  unfold bankScheduleNew1
  split
  · rfl
  · split
    · split
      · rfl
      · rename_i heq _ entry hh
        have hmem : entry ∈ sorted b.pending :=
          List.mem_of_mem_head? (by rw [hh]; simp)
        have hpermS : (sorted b.pending).Perm b.pending := hsorted _
        have hpnd : (b.pending.map (fun x => x.slot)).Nodup := pending_nodup_of_bank hnd
        have hsnd : ((sorted b.pending).map (fun x => x.slot)).Nodup :=
          ((hpermS.map _).nodup_iff).2 hpnd
        have hsub : [entry.slot].Sublist ((sorted b.pending).map (fun x => x.slot)) :=
          List.singleton_sublist.2 (List.mem_map_of_mem _ hmem)
        have hperm2 := sublist_filter_perm hsnd hsub
        have hpred : (fun x : DrbEntry => decide (x.slot ≠ entry.slot)) =
            (fun x : DrbEntry => decide (x.slot ∉ [entry.slot])) := by
          funext x; simp
        have hmap : (removeEntry (sorted b.pending) entry).map (fun x => x.slot) =
            ((sorted b.pending).map (fun x => x.slot)).filter
              (fun s => decide (s ∉ [entry.slot])) := by
          rw [removeEntry, hpred]
          exact map_slot_filter (fun s => decide (s ∉ [entry.slot])) (sorted b.pending)
        have hcoe : (↑([entry.slot]) : Multiset Nat) +
            ↑(((sorted b.pending).map (fun x => x.slot)).filter
                (fun s => decide (s ∉ [entry.slot]))) =
            ↑((sorted b.pending).map (fun x => x.slot)) := by
          rw [Multiset.coe_add]; exact Multiset.coe_eq_coe.2 hperm2
        have hcoeS : (↑((sorted b.pending).map (fun x => x.slot)) : Multiset Nat) =
            ↑(b.pending.map (fun x => x.slot)) := Multiset.coe_eq_coe.2 (hpermS.map _)
        simp only [bankSlots_def, heq, hmap]
        rw [← hcoeS, ← hcoe]
        simp only [Option.toList_some, List.map_cons, List.map_nil]
        abel
    · rename_i cur hcur
      split
      · simp only [bankSlots_def, hcur, Option.toList_some, List.map_cons, List.map_nil]
      · rfl

lemma complete_branch_slots (b : Bank) (total : Int) (temp : List DrbEntry)
    (cur : DrbEntry) (hc : b.current = some cur)
    (hsub : (temp.map (fun x => x.slot)).Sublist (b.pending.map (fun x => x.slot)))
    (hnd : (b.pending.map (fun x => x.slot)).Nodup) :
    bankSlots (removePass b total temp).1 = bankSlots b ∧
      bankSlots (completeEpilogue (removePass b total temp).1 cur) = bankSlots b := by
  have hr := removePass_eq temp b total
  have hmapreset : ((temp.map resetEntry).map (fun x => x.slot)) =
      temp.map (fun x => x.slot) := by
    rw [List.map_map]; rfl
  have hmapf : ((b.pending.filter
        (fun x => decide (x.slot ∉ temp.map (fun x => x.slot)))).map (fun x => x.slot)) =
      (b.pending.map (fun x => x.slot)).filter
        (fun s => decide (s ∉ temp.map (fun x => x.slot))) :=
    map_slot_filter (fun s => decide (s ∉ temp.map (fun x => x.slot))) b.pending
  have hperm := sublist_filter_perm hnd hsub
  have hcoe : (↑(temp.map (fun x => x.slot)) : Multiset Nat) +
      ↑((b.pending.map (fun x => x.slot)).filter
          (fun s => decide (s ∉ temp.map (fun x => x.slot)))) =
      ↑(b.pending.map (fun x => x.slot)) := by
    rw [Multiset.coe_add]; exact Multiset.coe_eq_coe.2 hperm
  constructor
  · rw [hr]
    simp only [bankSlots_def, List.map_append, ← Multiset.coe_add, hmapreset, hmapf, hc]
    rw [← hcoe]; abel
  · rw [hr]
    unfold completeEpilogue
    simp only [bankSlots_def, List.map_append, ← Multiset.coe_add, hmapreset, hmapf, hc]
    rw [← hcoe]
    simp only [Option.toList_some, Option.toList_none, List.map_cons, List.map_nil,
      resetEntry_slot, Multiset.coe_nil]
    abel

lemma completeTail_bank (noc : Nat → Bool) (now : Nat) (cur : DrbEntry)
    (ms : MergeSt) (b : Bank) (total : Int) :
    (completeTail noc now cur ms b total).bank = (removePass b total ms.temp).1 ∨
    (completeTail noc now cur ms b total).bank =
      completeEpilogue (removePass b total ms.temp).1 cur := by
  unfold completeTail
  by_cases h1 : ms.needStop
  · left; simp [h1]
  · by_cases h2 : (getReq cur).m_type = ReqType.MRT_WB
    · right; simp [h1, h2]
    · by_cases h3 : noc ms.k
      · right; simp [h1, h2, h3]
      · left; simp [h1, h2, h3]

lemma mergePhase_temp_sublist (mergeKnob : Bool) (noc : Nat → Bool) (now caddr : Nat)
    (pending : List DrbEntry) (s : CompleteSt) :
    ((mergePhase mergeKnob noc now caddr pending s).temp.map (fun x => x.slot)).Sublist
      (pending.map (fun x => x.slot)) := by
  unfold mergePhase
  by_cases hk : mergeKnob
  · simp only [hk, if_true]
    rcases mergeScan_temp_shape noc now caddr pending
      { temp := [], needStop := false, freed := s.freed, sent := s.sent,
        numC := s.numC, k := s.k } with ⟨t, ht, hsub, _⟩
    rw [ht]
    simpa using hsub
  · simp [hk]

lemma bankSlots_complete1 (mergeKnob : Bool) (noc : Nat → Bool) (now : Nat)
    (s : CompleteSt) (hnd : (bankSlotsList s.bank).Nodup) :
    bankSlots (bankScheduleComplete1 mergeKnob noc now s).bank = bankSlots s.bank := by
  unfold bankScheduleComplete1
  split
  · rfl
  · rename_i cur hc
    by_cases hdr : s.bank.dataReady ≤ now
    · rw [if_pos hdr]
      have hpnd : (s.bank.pending.map (fun x => x.slot)).Nodup :=
        pending_nodup_of_bank hnd
      have hsub := mergePhase_temp_sublist mergeKnob noc now cur.m_addr s.bank.pending s
      have hbr := complete_branch_slots s.bank s.total
        (mergePhase mergeKnob noc now cur.m_addr s.bank.pending s).temp cur hc hsub hpnd
      rcases completeTail_bank noc now cur
        (mergePhase mergeKnob noc now cur.m_addr s.bank.pending s) s.bank s.total with
        hb | hb
      · rw [hb]; exact hbr.1
      · rw [hb]; exact hbr.2
    · rw [if_neg hdr]

/-! ### Claim theorems -/

/-- C2: For every physical address `A` passed to `insert_new_req`, with `R`
the row-buffer size, `B` the number of banks, and `L` the L3 line size (all
powers of two): the decoded column is `A mod R`, the decoded row is
`A div (R*B)`, and the decoded bank is `(A div R) mod B` when the
XOR-permutation knob is off, and `((A div R) mod B) XOR ((A div (L*512))
mod B)` when it is on. -/
theorem claim_C2_address_decoding (c : DramCfg) (A r bexp lexp : Nat)
    (hR : c.rowbufferSize = 2 ^ r) (hB : c.numBanks = 2 ^ bexp)
    (hL : c.l3LineSize = 2 ^ lexp) :
    (decodeAddr c A).1 = A % c.rowbufferSize ∧
    (decodeAddr c A).2.2 = A / (c.rowbufferSize * c.numBanks) ∧
    (c.xorKnob = false →
      (decodeAddr c A).2.1 = (A / c.rowbufferSize) % c.numBanks) ∧
    (c.xorKnob = true →
      (decodeAddr c A).2.1 = ((A / c.rowbufferSize) % c.numBanks) ^^^
        ((A / (c.l3LineSize * 512)) % c.numBanks)) := by
  have hlog : ∀ n : Nat, log2_int (2 ^ n) = n := fun n => by
    simp [log2_int, Nat.log2_eq_log_two, Nat.log_pow (by norm_num : 1 < 2)]
  have h512 : log2_int 512 = 9 := by
    rw [show (512 : Nat) = 2 ^ 9 by norm_num, hlog]
  have hmask : ∀ (a n : Nat), a &&& nBitMask n = a % 2 ^ n := fun a n => by
    simp [nBitMask, Nat.and_pow_two_sub_one_eq_mod]
  simp only [decodeAddr, DramCfg.cidMask, DramCfg.bidShift, DramCfg.bidMask,
    DramCfg.ridShift, DramCfg.bidXorShift, hR, hB, hL, hlog, h512, hmask,
    Nat.shiftRight_eq_div_pow]
  refine ⟨by simp, ?_, ?_, ?_⟩
  · rw [Nat.div_div_eq_div_mul]
  · intro hx; simp [hx]
  · intro hx
    simp only [hx, if_true]
    rw [pow_add]
    norm_num

/-- Witness for C2 at two concrete configurations, one with the XOR knob off
(row buffer 8, 4 banks) and one with it on (line size 64). -/
theorem claim_C2_address_decoding_witness :
    ((decodeAddr ⟨8, 4, 64, false⟩ 123456).1 = 123456 % 8 ∧
      (decodeAddr ⟨8, 4, 64, false⟩ 123456).2.2 = 123456 / (8 * 4) ∧
      (decodeAddr ⟨8, 4, 64, false⟩ 123456).2.1 = (123456 / 8) % 4) ∧
    (decodeAddr ⟨8, 4, 64, true⟩ 123456).2.1 =
      ((123456 / 8) % 4) ^^^ ((123456 / (64 * 512)) % 4) := by
  have h1 := claim_C2_address_decoding ⟨8, 4, 64, false⟩ 123456 3 2 6
    (by norm_num) (by norm_num) (by norm_num)
  have h2 := claim_C2_address_decoding ⟨8, 4, 64, true⟩ 123456 3 2 6
    (by norm_num) (by norm_num) (by norm_num)
  exact ⟨⟨h1.1, h1.2.1, h1.2.2.1 rfl⟩, h2.2.2.2 rfl⟩

/-- C3: For every request given to `insert_new_req`: if the decoded target
bank's free list is empty, every pending entry of that bank whose request
type is DPRF is removed (its underlying request returned to the external pool
and `total_requests` decremented); if the free list is still empty afterwards
`insert_new_req` returns false and enqueues nothing; otherwise a free entry
is taken, populated from the request, appended to the bank's pending list,
`total_requests` is incremented, the request's lifecycle state is set to
`DRAM_START`, and `insert_new_req` returns true. -/
theorem claim_C3_insert_new_req (b : Bank) (req : MemReq) (bid rid cid uid : Int)
    (now : Nat) (total : Int)
    (hnd : (b.pending.map (fun x => x.slot)).Nodup) :
    (∀ e rest, b.free = e :: rest →
      insertNewReq b req bid rid cid uid now total =
        { ok := true
          bank := { b with
            free := rest
            pending := b.pending ++
              [entrySet e { req with m_state := MemState.MEM_DRAM_START } bid rid cid uid now] }
          freed := []
          total := total + 1
          reqState := MemState.MEM_DRAM_START }) ∧
    (b.free = [] →
      b.pending.filter (fun e => decide ((getReq e).m_type = ReqType.MRT_DPRF)) = [] →
      insertNewReq b req bid rid cid uid now total =
        { ok := false, bank := b, freed := [], total := total,
          reqState := req.m_state }) ∧
    (∀ d ds, b.free = [] →
      b.pending.filter (fun e => decide ((getReq e).m_type = ReqType.MRT_DPRF)) = d :: ds →
      insertNewReq b req bid rid cid uid now total =
        { ok := true
          bank := { b with
            free := ds
            pending := b.pending.filter
                (fun e => !decide ((getReq e).m_type = ReqType.MRT_DPRF)) ++
              [entrySet d { req with m_state := MemState.MEM_DRAM_START } bid rid cid uid now] }
          freed := (d :: ds).map getReq
          total := (total - (d :: ds).length) + 1
          reqState := MemState.MEM_DRAM_START }) := by
  refine ⟨?_, ?_, ?_⟩
  · intro e rest hf
    unfold insertNewReq
    have hne : ¬ b.free.isEmpty = true := by simp [hf]
    simp only [hne, Bool.false_eq_true, if_false]
    simp [insertReqInDrb, hf]
  · intro hf hnoprf
    unfold insertNewReq
    have he : b.free.isEmpty = true := by simp [hf]
    simp only [he, if_true]
    rw [flushPrefetch_spec b total hnd, hnoprf]
    have hself : b.pending.filter
        (fun e => !decide ((getReq e).m_type = ReqType.MRT_DPRF)) = b.pending := by
      rw [List.filter_eq_self]
      intro a ha
      have := List.filter_eq_nil_iff.1 hnoprf a ha
      simpa using this
    simp [hf, hself]
    rw [← hf]
  · intro d ds hf hprf
    unfold insertNewReq
    have he : b.free.isEmpty = true := by simp [hf]
    simp only [he, if_true]
    rw [flushPrefetch_spec b total hnd, hprf]
    simp [hf, insertReqInDrb]

/-- Witness for C3: a one-entry free list accepts a request directly; a full
bank with one DPRF pending entry flushes it and then accepts the request; a
full bank with no DPRF pending entry rejects the request. -/
theorem claim_C3_insert_new_req_witness :
    (insertNewReq
      { pending := []
        free := [freshEntry 0]
        current := none
        rid := -1
        bankReady := ullongMax
        dataReady := ullongMax
        dataAvail := ullongMax
        timestamp := 0 } defaultReq 0 1 0 7 4 10).ok = true ∧
    (insertNewReq
      { pending := [{ freshEntry 1 with
          m_req := some { defaultReq with m_type := ReqType.MRT_DPRF } }]
        free := []
        current := none
        rid := -1
        bankReady := ullongMax
        dataReady := ullongMax
        dataAvail := ullongMax
        timestamp := 0 } defaultReq 0 1 0 7 4 10).ok = true ∧
    (insertNewReq
      { pending := [{ freshEntry 1 with m_req := some defaultReq }]
        free := []
        current := none
        rid := -1
        bankReady := ullongMax
        dataReady := ullongMax
        dataAvail := ullongMax
        timestamp := 0 } defaultReq 0 1 0 7 4 10).ok = false := by
  refine ⟨?_, ?_, ?_⟩
  · rw [(claim_C3_insert_new_req _ defaultReq 0 1 0 7 4 10 (by decide)).1
      (freshEntry 0) [] rfl]
  · rw [(claim_C3_insert_new_req _ defaultReq 0 1 0 7 4 10 (by decide)).2.2
      { freshEntry 1 with m_req := some { defaultReq with m_type := ReqType.MRT_DPRF } }
      [] rfl (by decide)]
  · rw [(claim_C3_insert_new_req _ defaultReq 0 1 0 7 4 10 (by decide)).2.1
      rfl (by decide)]

/-- C5: For every bank pending list, the FR-FCFS schedule operation
stable-sorts the list with the comparator: a non-DPRF entry outranks a DPRF
entry; otherwise an entry whose `row_id` equals the bank's open row outranks
one whose does not; otherwise the entry with the smaller `insert_timestamp`
outranks; and schedule returns the resulting front entry — so for a bank
with open row 5 and pending `[(row 4, t=1), (row 5, t=2)]`, FR-FCFS selects
the `t=2` entry while FCFS's schedule returns the original front, the `t=1`
entry. -/
theorem claim_C5_frfcfs_ordering :
    (∀ (currentRid : Int) (a b : DrbEntry),
      sortFunc currentRid a b = true ↔
        (((getReq a).m_type ≠ ReqType.MRT_DPRF ∧
            (getReq b).m_type = ReqType.MRT_DPRF) ∨
         (((getReq a).m_type = ReqType.MRT_DPRF ↔
             (getReq b).m_type = ReqType.MRT_DPRF) ∧
           ((a.m_rid = currentRid ∧ ¬ b.m_rid = currentRid) ∨
            ((a.m_rid = currentRid ↔ b.m_rid = currentRid) ∧
              a.m_timestamp < b.m_timestamp))))) ∧
    (∀ (currentRid : Int) (l : List DrbEntry),
      (frfcfsSortedBuffer currentRid l).Perm l) ∧
    scheduleFront (frfcfsSortedBuffer 5 [exMissEntry, exHitEntry]) = some exHitEntry ∧
    scheduleFront (fcfsSortedBuffer [exMissEntry, exHitEntry]) = some exMissEntry := by
  refine ⟨?_, ?_, ?_, rfl⟩
  · intro currentRid a b
    unfold sortFunc
    by_cases h1 : (getReq a).m_type = ReqType.MRT_DPRF <;>
      by_cases h2 : (getReq b).m_type = ReqType.MRT_DPRF <;>
        by_cases h3 : a.m_rid = currentRid <;>
          by_cases h4 : b.m_rid = currentRid <;>
            simp [h1, h2, h3, h4]
  · intro currentRid l
    exact List.mergeSort_perm l _
  · simp [frfcfsSortedBuffer, List.mergeSort, scheduleFront, sortFunc,
      exMissEntry, exHitEntry, getReq, defaultReq, freshEntry]

/-- C8: For every call `acquire_data_bus(channel, size, is_gpu)`, with
`avail` the channel's current `bytes_available_in_current_cycle` and `W` the
bus width in bytes: if `size < avail`, then `avail` is decreased by `size`
and the returned release cycle equals the current cycle; otherwise the
returned release cycle equals the current cycle plus
`floor((size - avail)/W) + 1` DRAM cycles converted to host cycles using the
GPU or CPU cycle ratio, and `avail` is reset to
`W - ((size - avail) mod W)`; in both cases the channel's bus-free cycle is
set to the returned release cycle. -/
theorem claim_C8_acquire_data_bus (busWidth : Nat) (rCpu rGpu : ℚ) (now : Nat)
    (ch : Channel) (reqSize : Nat) (gpuReq : Bool) :
    (reqSize < ch.byteAvail →
      acquireDataBus busWidth rCpu rGpu now ch reqSize gpuReq =
        ({ byteAvail := ch.byteAvail - reqSize, dbusReady := now }, now)) ∧
    (¬ reqSize < ch.byteAvail →
      (acquireDataBus busWidth rCpu rGpu now ch reqSize gpuReq).2 =
          now + dramToHost (if gpuReq then rGpu else rCpu)
            ((reqSize - ch.byteAvail) / busWidth + 1) ∧
        (acquireDataBus busWidth rCpu rGpu now ch reqSize gpuReq).1.byteAvail =
          busWidth - (reqSize - ch.byteAvail) % busWidth) ∧
    (acquireDataBus busWidth rCpu rGpu now ch reqSize gpuReq).1.dbusReady =
      (acquireDataBus busWidth rCpu rGpu now ch reqSize gpuReq).2 := by
  unfold acquireDataBus
  by_cases h : reqSize < ch.byteAvail <;> simp [h]

/-- Witness for C8: a 10-byte transfer on an 8-byte-wide bus with 4 bytes
left in the current cycle, at cycle ratio 1, releases the bus one cycle
later and leaves `8 - (10 - 4) mod 8 = 2` bytes; a 2-byte transfer with 4
bytes left stays in the same cycle. -/
theorem claim_C8_acquire_data_bus_witness :
    ((acquireDataBus 8 1 1 7 ⟨4, 0⟩ 10 false).2 =
        7 + dramToHost 1 ((10 - 4) / 8 + 1) ∧
      (acquireDataBus 8 1 1 7 ⟨4, 0⟩ 10 false).1.byteAvail = 8 - (10 - 4) % 8) ∧
    acquireDataBus 8 1 1 7 ⟨4, 0⟩ 2 false = ({ byteAvail := 4 - 2, dbusReady := 7 }, 7) := by
  constructor
  · exact (claim_C8_acquire_data_bus 8 1 1 7 ⟨4, 0⟩ 10 false).2.1 (by norm_num)
  · exact (claim_C8_acquire_data_bus 8 1 1 7 ⟨4, 0⟩ 2 false).1 (by norm_num)

/-- C10: For every channel, `bytes_available_in_current_cycle` is at least 1
and at most the bus width immediately after construction and after every
`acquire_data_bus` call (request sizes are naturals, hence non-negative):
the data-bus accounting never leaves a channel with zero or negative
remaining bytes. -/
theorem claim_C10_byte_avail_bounds (busWidth : Nat) (hW : 1 ≤ busWidth) :
    (1 ≤ (initChannel busWidth).byteAvail ∧
      (initChannel busWidth).byteAvail ≤ busWidth) ∧
    (∀ (rCpu rGpu : ℚ) (now : Nat) (ch : Channel) (reqSize : Nat) (gpuReq : Bool),
      1 ≤ ch.byteAvail → ch.byteAvail ≤ busWidth →
      1 ≤ (acquireDataBus busWidth rCpu rGpu now ch reqSize gpuReq).1.byteAvail ∧
        (acquireDataBus busWidth rCpu rGpu now ch reqSize gpuReq).1.byteAvail ≤
          busWidth) := by
  constructor
  · exact ⟨by simpa [initChannel] using hW, by simp [initChannel]⟩
  · intro rCpu rGpu now ch reqSize gpuReq h1 h2
    unfold acquireDataBus
    by_cases h : reqSize < ch.byteAvail
    · simp only [h, if_true]
      constructor <;> [omega; omega]
    · simp only [h, if_false]
      have hmod := Nat.mod_lt (reqSize - ch.byteAvail) (show 0 < busWidth by omega)
      constructor <;> [omega; omega]

/-- Witness for C10: the bounds hold for an 8-byte bus right after
construction and after a 13-byte transfer on a channel with 5 bytes left. -/
theorem claim_C10_byte_avail_bounds_witness :
    (1 ≤ (initChannel 8).byteAvail ∧ (initChannel 8).byteAvail ≤ 8) ∧
    (1 ≤ (acquireDataBus 8 1 1 9 ⟨5, 0⟩ 13 true).1.byteAvail ∧
      (acquireDataBus 8 1 1 9 ⟨5, 0⟩ 13 true).1.byteAvail ≤ 8) :=
  ⟨(claim_C10_byte_avail_bounds 8 (by norm_num)).1,
   (claim_C10_byte_avail_bounds 8 (by norm_num)).2 1 1 9 ⟨5, 0⟩ 13 true
     (by norm_num) (by norm_num)⟩

lemma starvationRun_flag_true (ticks : List (Int × Nat)) :
    ∀ starv, (starvationRun ticks starv true).2 = true := by
  induction ticks with
  | nil => intro starv; rfl
  | cons t rest ih =>
      intro starv
      simp only [starvationRun, List.foldl_cons]
      exact ih _

lemma starvationRun_starving (ticks : List (Int × Nat))
    (hstarv : ∀ t ∈ ticks, 0 < t.1 ∧ t.2 = 0) :
    ∀ starv, ticks ≠ [] → 5000 ≤ starv + ticks.length →
      (starvationRun ticks starv false).2 = true := by
  induction ticks with
  | nil => intro _ hne _; exact absurd rfl hne
  | cons t rest ih =>
      intro starv _ hbound
      have ht := hstarv t (List.mem_cons_self _ _)
      have hstep : progressCheck t.1 t.2 starv = (starv + 1, decide (5000 ≤ starv + 1)) := by
        simp [progressCheck, ht.1, ht.2]
      simp only [starvationRun, List.foldl_cons] at *
      rw [hstep]
      by_cases habort : 5000 ≤ starv + 1
      · have : (false || decide (5000 ≤ starv + 1)) = true := by simp [habort]
        rw [this]
        exact starvationRun_flag_true rest _
      · have hfalse : (false || decide (5000 ≤ starv + 1)) = false := by simp [habort]
        rw [hfalse]
        have hne : rest ≠ [] := by
          intro hnil
          rw [hnil] at hbound
          simp at hbound
          omega
        exact ih (fun x hx => hstarv x (List.mem_cons_of_mem _ hx)) (starv + 1) hne
          (by simp at hbound ⊢; omega)

/-- C7: On every tick, the starvation counter is incremented by one if
`total_requests > 0` and no request completed during that tick
(`m_num_completed_in_last_cycle = 0`), and is reset to zero otherwise;
whenever the counter reaches 5000 the controller dumps its bank state and
aborts — hence the controller never runs more than 5000 consecutive ticks
with pending requests and no completions without aborting. -/
theorem claim_C7_starvation_watchdog :
    (∀ (totalReq : Int) (numC starv : Nat),
      (0 < totalReq ∧ numC = 0 →
        (progressCheck totalReq numC starv).1 = starv + 1) ∧
      (¬(0 < totalReq ∧ numC = 0) → (progressCheck totalReq numC starv).1 = 0) ∧
      ((progressCheck totalReq numC starv).2 = true ↔
        5000 ≤ (progressCheck totalReq numC starv).1)) ∧
    (∀ (ticks : List (Int × Nat)) (starv : Nat),
      (∀ t ∈ ticks, 0 < t.1 ∧ t.2 = 0) → 5000 ≤ ticks.length →
      (starvationRun ticks starv false).2 = true) := by
  constructor
  · intro totalReq numC starv
    refine ⟨fun h => by simp [progressCheck, h], fun h => by simp [progressCheck, h], ?_⟩
    simp [progressCheck]
  · intro ticks starv hstarv hlen
    have hne : ticks ≠ [] := by
      intro hnil; rw [hnil] at hlen; simp at hlen
    exact starvationRun_starving ticks hstarv starv hne (by omega)

/-- Witness for C7: a starving tick increments the counter, a completing
tick resets it, the abort fires exactly at 5000, and a run of 5000 starving
ticks aborts. -/
theorem claim_C7_starvation_watchdog_witness :
    (progressCheck 3 0 41).1 = 41 + 1 ∧
    (progressCheck 3 2 41).1 = 0 ∧
    ((progressCheck 3 0 4999).2 = true ↔ 5000 ≤ (progressCheck 3 0 4999).1) ∧
    (starvationRun (List.replicate 5000 ((3 : Int), (0 : Nat))) 0 false).2 = true := by
  refine ⟨?_, ?_, ?_, ?_⟩
  · exact (claim_C7_starvation_watchdog.1 3 0 41).1 (by norm_num)
  · exact (claim_C7_starvation_watchdog.1 3 2 41).2.1 (by norm_num)
  · exact (claim_C7_starvation_watchdog.1 3 0 4999).2.2
  · exact claim_C7_starvation_watchdog.2 (List.replicate 5000 (3, 0)) 0
      (fun t ht => by
        have := List.eq_of_mem_replicate ht
        rw [this]
        exact ⟨by norm_num, rfl⟩)
      (by rw [List.length_replicate])

lemma selectCmdAux_spec :
    ∀ (l : List Bank) (idx oldest : Nat) (best : Option Nat) (j : Nat),
      selectCmdAux l idx oldest best = some j →
      best = some j ∨
        (idx ≤ j ∧ j - idx < l.length ∧
          cmdEligible (l.getD (j - idx) default) = true) := by
  intro l
  induction l with
  | nil => intro idx oldest best j h; exact Or.inl h
  | cons b rest ih =>
      intro idx oldest best j h
      simp only [selectCmdAux] at h
      by_cases hc : cmdEligible b = true ∧ b.timestamp < oldest
      · rw [if_pos hc] at h
        rcases ih _ _ _ _ h with hbest | ⟨h1, h2, h3⟩
        · right
          have hj : idx = j := by injection hbest
          subst hj
          exact ⟨le_refl _, by simp, by simpa using hc.1⟩
        · right
          refine ⟨by omega, by simp; omega, ?_⟩
          have hd : j - idx = (j - (idx + 1)) + 1 := by omega
          rw [hd, List.getD_cons_succ]
          exact h3
      · rw [if_neg hc] at h
        rcases ih _ _ _ _ h with hbest | ⟨h1, h2, h3⟩
        · exact Or.inl hbest
        · right
          refine ⟨by omega, by simp; omega, ?_⟩
          have hd : j - idx = (j - (idx + 1)) + 1 := by omega
          rw [hd, List.getD_cons_succ]
          exact h3

lemma selectCmdBank_spec (banks : List Bank) (j : Nat)
    (h : selectCmdBank banks = some j) :
    j < banks.length ∧ cmdEligible (banks.getD j default) = true := by
  rcases selectCmdAux_spec banks 0 ullongMax none j h with h0 | ⟨_, h2, h3⟩
  · cases h0
  · rw [Nat.sub_zero] at h2 h3
    exact ⟨h2, h3⟩

/-- C1: For every cycle and every bank whose current entry the channel
command scheduler selects in state CMD: if the bank has no open row, an
ACTIVATE is issued — the bank's open row is set to the entry's `row_id`, the
entry moves to CMD_WAIT, `bank_ready_at` is set to the current cycle plus
the activate latency (GPU scale for a GPU request, else CPU scale), and
`data_avail_at` is set to infinity; if the open row equals the entry's
`row_id`, a COLUMN access is issued — the entry moves to DATA,
`bank_ready_at` is set to the current cycle plus the column latency, and
`data_avail_at` equals `bank_ready_at`; otherwise a PRECHARGE is issued —
the open row is cleared, the entry moves to CMD_WAIT, `bank_ready_at` is
set to the current cycle plus the precharge latency, and `data_avail_at` is
set to infinity. -/
theorem claim_C1_cmd_issue (lat : Latencies) (now : Nat) (banks : List Bank)
    (j : Nat) (hsel : selectCmdBank banks = some j) :
    ∃ e, (banks.getD j default).current = some e ∧
      e.m_state = DramState.DRAM_CMD ∧
      (channelScheduleCmd lat now banks).1 =
        banks.set j (cmdIssue lat now (banks.getD j default)).1 ∧
      ((banks.getD j default).rid = -1 →
        (cmdIssue lat now (banks.getD j default)).2 = some DramCmd.activate ∧
        (cmdIssue lat now (banks.getD j default)).1.rid = e.m_rid ∧
        ((cmdIssue lat now (banks.getD j default)).1.current.map
          (fun x => x.m_state)) = some DramState.DRAM_CMD_WAIT ∧
        (cmdIssue lat now (banks.getD j default)).1.bankReady =
          now + (if (getReq e).m_ptx then lat.activateGpu else lat.activateCpu) ∧
        (cmdIssue lat now (banks.getD j default)).1.dataAvail = ullongMax) ∧
      (¬(banks.getD j default).rid = -1 →
        e.m_rid = (banks.getD j default).rid →
        (cmdIssue lat now (banks.getD j default)).2 = some DramCmd.column ∧
        ((cmdIssue lat now (banks.getD j default)).1.current.map
          (fun x => x.m_state)) = some DramState.DRAM_DATA ∧
        (cmdIssue lat now (banks.getD j default)).1.bankReady =
          now + (if (getReq e).m_ptx then lat.columnGpu else lat.columnCpu) ∧
        (cmdIssue lat now (banks.getD j default)).1.dataAvail =
          (cmdIssue lat now (banks.getD j default)).1.bankReady) ∧
      (¬(banks.getD j default).rid = -1 →
        ¬e.m_rid = (banks.getD j default).rid →
        (cmdIssue lat now (banks.getD j default)).2 = some DramCmd.precharge ∧
        (cmdIssue lat now (banks.getD j default)).1.rid = -1 ∧
        ((cmdIssue lat now (banks.getD j default)).1.current.map
          (fun x => x.m_state)) = some DramState.DRAM_CMD_WAIT ∧
        (cmdIssue lat now (banks.getD j default)).1.bankReady =
          now + (if (getReq e).m_ptx then lat.prechargeGpu else lat.prechargeCpu) ∧
        (cmdIssue lat now (banks.getD j default)).1.dataAvail = ullongMax) := by
  obtain ⟨-, helig⟩ := selectCmdBank_spec banks j hsel
  set b := banks.getD j default with hb
  obtain ⟨e, hcur, hstate⟩ : ∃ e, b.current = some e ∧
      e.m_state = DramState.DRAM_CMD := by
    unfold cmdEligible at helig
    cases hc : b.current with
    | none => rw [hc] at helig; simp at helig
    | some e => rw [hc] at helig; exact ⟨e, rfl, by simpa using helig⟩
  refine ⟨e, hcur, hstate, ?_, ?_, ?_, ?_⟩
  · unfold channelScheduleCmd
    rw [hsel]
  · intro hrid
    simp [cmdIssue, hcur, hrid, getReq]
  · intro hrid hhit
    simp [cmdIssue, hcur, hrid, hhit, getReq]
  · intro hrid hmiss
    simp [cmdIssue, hcur, hrid, hmiss, getReq]

/-- Witness for C1: the concrete one-bank channel with no open row selects
bank 0 and issues an ACTIVATE, opening row 7 with the CPU activate
latency. -/
theorem claim_C1_cmd_issue_witness :
    (channelScheduleCmd c9lat 7 [c9bank]).1 =
      [c9bank].set 0 (cmdIssue c9lat 7 ([c9bank].getD 0 default)).1 ∧
    (cmdIssue c9lat 7 ([c9bank].getD 0 default)).2 = some DramCmd.activate ∧
    (cmdIssue c9lat 7 ([c9bank].getD 0 default)).1.rid = 7 ∧
    (cmdIssue c9lat 7 ([c9bank].getD 0 default)).1.bankReady = 7 + 12 := by
  obtain ⟨e, hcur, -, hset, hact, -, -⟩ :=
    claim_C1_cmd_issue c9lat 7 [c9bank] 0 (by decide)
  have he : e = c9entry := by
    have : ([c9bank].getD 0 default).current = some c9entry := by decide
    rw [this] at hcur
    injection hcur with h
    exact h.symm
  obtain ⟨h1, h2, -, h4, -⟩ := hact (by decide)
  subst he
  exact ⟨hset, h1, by simpa using h2, by simpa using h4⟩

/-- C9 counterexample: at cycle 7 the channel command scheduler selects the
bank whose `m_bank_timestamp` is 3 and issues an ACTIVATE, yet afterwards
the bank's `m_bank_timestamp` still reads 3, not the current cycle 7. -/
theorem claim_C9_counterexample :
    (channelScheduleCmd c9lat 7 [c9bank]).2 = some (0, DramCmd.activate) ∧
    ((channelScheduleCmd c9lat 7 [c9bank]).1.getD 0 default).timestamp = 3 ∧
    (3 : Nat) ≠ 7 := by
  refine ⟨by decide, by decide, by decide⟩

/-- C9 amended: sub-command issue (`channel_schedule_cmd`) leaves
`m_bank_timestamp` unchanged; the timestamp is instead set to the current
cycle when the bank enters the CMD state in `bank_schedule_new` — when a new
request is selected and when a CMD_WAIT bank whose inter-command delay has
elapsed is re-armed. -/
theorem claim_C9_amended (now : Nat) :
    (∀ (lat : Latencies) (b : Bank),
      ((cmdIssue lat now b).1).timestamp = b.timestamp) ∧
    (∀ (sorted : List DrbEntry → List DrbEntry) (b : Bank) (entry : DrbEntry),
      (∀ l, (sorted l).Perm l) → b.current = none →
      (sorted b.pending).head? = some entry →
      (bankScheduleNew1 sorted now b).timestamp = now) ∧
    (∀ (sorted : List DrbEntry → List DrbEntry) (b : Bank) (cur : DrbEntry),
      b.current = some cur → b.bankReady ≤ now →
      cur.m_state = DramState.DRAM_CMD_WAIT →
      (bankScheduleNew1 sorted now b).timestamp = now) := by
  refine ⟨?_, ?_, ?_⟩
  · intro lat b
    unfold cmdIssue
    cases hc : b.current with
    | none => rfl
    | some e =>
        by_cases h1 : b.rid = -1
        · simp [h1]
        · by_cases h2 : e.m_rid = b.rid <;> simp [h1, h2]
  · intro sorted b entry hperm hcur hhead
    have hne : ¬(sorted b.pending) = [] := by
      intro hnil; rw [hnil] at hhead; cases hhead
    have hpne : ¬b.pending.isEmpty = true := by
      intro hemp
      rw [List.isEmpty_iff] at hemp
      apply hne
      have hlen := (hperm b.pending).length_eq
      have hlen2 : (sorted b.pending).length = 0 := by rw [hlen, hemp]; rfl
      exact List.length_eq_zero.1 hlen2
    unfold bankScheduleNew1
    rw [if_neg (by simp [hpne])]
    rw [hcur]
    simp only [hhead]
  · intro sorted b cur hcur hready hstate
    unfold bankScheduleNew1
    rw [if_neg (by simp [hcur])]
    rw [hcur]
    simp [hready, hstate]

/-- Witness for the amended C9: the concrete ACTIVATE leaves the timestamp
at 3, a concrete selection sets it to the cycle 9, and a concrete re-arm
sets it to the cycle 11. -/
theorem claim_C9_amended_witness :
    ((cmdIssue c9lat 7 c9bank).1).timestamp = c9bank.timestamp ∧
    (bankScheduleNew1 fcfsSortedBuffer 9
      { pending := [exMissEntry], free := [], current := none, rid := -1,
        bankReady := ullongMax, dataReady := ullongMax, dataAvail := ullongMax,
        timestamp := 2 }).timestamp = 9 ∧
    (bankScheduleNew1 fcfsSortedBuffer 11
      { pending := [], free := [],
        current := some { c9entry with m_state := DramState.DRAM_CMD_WAIT },
        rid := -1, bankReady := 4, dataReady := ullongMax,
        dataAvail := ullongMax, timestamp := 2 }).timestamp = 11 := by
  refine ⟨(claim_C9_amended 7).1 c9lat c9bank, ?_, ?_⟩
  · exact (claim_C9_amended 9).2.1 fcfsSortedBuffer _ exMissEntry
      (fun l => List.Perm.refl l) rfl rfl
  · exact (claim_C9_amended 11).2.2 fcfsSortedBuffer _
      { c9entry with m_state := DramState.DRAM_CMD_WAIT } rfl (by norm_num) rfl

/-- C4: For every bank, the number of entries in the bank's free list plus
the number in its pending list plus one if a current entry is present equals
the configured `buffer_size` right after construction; every operation
(ingress, prefetch flush, new-request selection, completion with merging)
preserves the multiset of entry identities split over the three places —
hence the conservation sum — and no entry can come to sit in more than one
of the three places. -/
theorem claim_C4_buffer_conservation :
    (∀ size, bankCount (initBank size) = size ∧
      (bankSlotsList (initBank size)).Nodup) ∧
    (∀ (b : Bank) (req : MemReq) (bid rid cid uid : Int) (now : Nat) (total : Int),
      (bankSlotsList b).Nodup →
      bankSlots (insertNewReq b req bid rid cid uid now total).bank = bankSlots b) ∧
    (∀ (b : Bank) (total : Int), (bankSlotsList b).Nodup →
      bankSlots (flushPrefetch b total).1 = bankSlots b) ∧
    (∀ (sorted : List DrbEntry → List DrbEntry), (∀ l, (sorted l).Perm l) →
      ∀ (now : Nat) (b : Bank), (bankSlotsList b).Nodup →
      bankSlots (bankScheduleNew1 sorted now b) = bankSlots b) ∧
    (∀ (mergeKnob : Bool) (noc : Nat → Bool) (now : Nat) (s : CompleteSt),
      (bankSlotsList s.bank).Nodup →
      bankSlots (bankScheduleComplete1 mergeKnob noc now s).bank = bankSlots s.bank) ∧
    (∀ b b' : Bank, bankSlots b' = bankSlots b →
      bankCount b' = bankCount b ∧
        ((bankSlotsList b).Nodup → (bankSlotsList b').Nodup)) := by
  refine ⟨?_, ?_, ?_, ?_, ?_, ?_⟩
  · intro size
    refine ⟨by simp [bankCount, initBank], ?_⟩
    have : bankSlotsList (initBank size) = List.range size := by
      simp only [bankSlotsList, initBank, List.map_map, List.append_nil,
        Option.toList_none, List.map_nil]
      have hid : ((fun x : DrbEntry => x.slot) ∘ freshEntry) = id := by
        funext i; rfl
      rw [hid, List.map_id]
    rw [this]
    exact List.nodup_range size
  · intro b req bid rid cid uid now total hnd
    exact bankSlots_insertNewReq b req bid rid cid uid now total
      (pending_nodup_of_bank hnd)
  · intro b total hnd
    exact bankSlots_flushPrefetch b total (pending_nodup_of_bank hnd)
  · exact fun sorted hs now b hnd => bankSlots_bankScheduleNew1 sorted hs now b hnd
  · exact fun mk noc now s hnd => bankSlots_complete1 mk noc now s hnd
  · intro b b' heq
    constructor
    · rw [bankCount_eq_card, bankCount_eq_card, heq]
    · intro hnd
      have h1 : (bankSlots b).Nodup := Multiset.coe_nodup.2 hnd
      rw [← heq] at h1
      exact Multiset.coe_nodup.1 h1

/-- Witness for C4: a four-entry bank is constructed conserving its count;
ingress, completion with merging, and FR-FCFS-free selection each preserve
the identity multiset of the concrete merge-scenario bank. -/
theorem claim_C4_buffer_conservation_witness :
    (bankCount (initBank 4) = 4 ∧ (bankSlotsList (initBank 4)).Nodup) ∧
    bankSlots (insertNewReq c6bank defaultReq 0 1 0 7 4 10).bank = bankSlots c6bank ∧
    bankSlots (bankScheduleComplete1 true c6noc 0 c6st).bank = bankSlots c6st.bank ∧
    bankSlots (bankScheduleNew1 fcfsSortedBuffer 9 c6bank) = bankSlots c6bank :=
  ⟨claim_C4_buffer_conservation.1 4,
   claim_C4_buffer_conservation.2.1 c6bank defaultReq 0 1 0 7 4 10 (by decide),
   claim_C4_buffer_conservation.2.2.2.2.1 true c6noc 0 c6st (by decide),
   claim_C4_buffer_conservation.2.2.2.1 fcfsSortedBuffer
     (fun l => List.Perm.refl l) 9 c6bank (by decide)⟩

/-- C6 counterexample: with merging enabled, the NoC refuses the first
same-address candidate's send (attempt 0) but accepts the second (attempt 1);
the second candidate is still removed from the bank's pending list, its
request marked `MEM_DRAM_DONE` and handed to the NoC, and its entry reset
into the free list in that same tick — only the refused candidate stays
pending and the primary completion is deferred. -/
theorem claim_C6_counterexample :
    c6noc 0 = false ∧
    (bankScheduleComplete1 true c6noc 0 c6st).bank.pending = [c6e1] ∧
    (bankScheduleComplete1 true c6noc 0 c6st).bank.free = [resetEntry c6e2] ∧
    (bankScheduleComplete1 true c6noc 0 c6st).sent =
      [{ c6req2 with m_state := MemState.MEM_DRAM_DONE }] ∧
    (bankScheduleComplete1 true c6noc 0 c6st).bank.current = some c6cur := by
  refine ⟨by decide, by decide, by decide, by decide, by decide⟩

lemma completeTail_pending (noc : Nat → Bool) (now : Nat) (cur : DrbEntry)
    (ms : MergeSt) (b : Bank) (total : Int) :
    (completeTail noc now cur ms b total).bank.pending =
      b.pending.filter
        (fun x => decide (x.slot ∉ ms.temp.map (fun y => y.slot))) := by
  rcases completeTail_bank noc now cur ms b total with h | h <;>
    rw [h, removePass_eq] <;> rfl

lemma completeTail_needStop (noc : Nat → Bool) (now : Nat) (cur : DrbEntry)
    (ms : MergeSt) (b : Bank) (total : Int) (h : ms.needStop = true) :
    (completeTail noc now cur ms b total).bank.current = b.current ∧
    (completeTail noc now cur ms b total).bank.dataReady = b.dataReady := by
  unfold completeTail
  rw [removePass_eq]
  simp [h]

lemma completeTail_primaryRefused (noc : Nat → Bool) (now : Nat) (cur : DrbEntry)
    (ms : MergeSt) (b : Bank) (total : Int) (h1 : ms.needStop = false)
    (h2 : ¬ (getReq cur).m_type = ReqType.MRT_WB) (h3 : noc ms.k = false) :
    (completeTail noc now cur ms b total).bank.current = b.current ∧
    (completeTail noc now cur ms b total).bank.dataReady = b.dataReady := by
  unfold completeTail
  rw [removePass_eq]
  simp [h1, h2, h3]

lemma mergePhase_slot_src (mergeKnob : Bool) (noc : Nat → Bool) (now caddr : Nat)
    (pending : List DrbEntry) (s : CompleteSt) (v : Nat)
    (hv : v ∈ (mergePhase mergeKnob noc now caddr pending s).temp.map
      (fun y => y.slot)) :
    ∃ e ∈ pending, v = e.slot ∧ e.m_addr = caddr := by
  unfold mergePhase at hv
  by_cases hk : mergeKnob
  · rw [if_pos hk] at hv
    rcases mergeScan_temp_shape noc now caddr pending
      { temp := [], needStop := false, freed := s.freed, sent := s.sent,
        numC := s.numC, k := s.k } with ⟨t, ht, _, hsrc⟩
    rw [ht] at hv
    simp only [List.nil_append] at hv
    rcases List.mem_map.1 hv with ⟨y, hy, hyv⟩
    rcases hsrc y hy with ⟨e, he, hys, haddr⟩
    exact ⟨e, he, by rw [← hyv, hys], haddr⟩
  · rw [if_neg hk] at hv
    simp at hv

lemma mergePhase_slot_refused (mergeKnob : Bool) (now caddr : Nat)
    (pending : List DrbEntry) (s : CompleteSt) (v : Nat)
    (hv : v ∈ (mergePhase mergeKnob (fun _ => false) now caddr pending s).temp.map
      (fun y => y.slot)) :
    ∃ e ∈ pending, v = e.slot ∧ e.m_addr = caddr ∧
      (getReq e).m_type = ReqType.MRT_WB := by
  unfold mergePhase at hv
  by_cases hk : mergeKnob
  · rw [if_pos hk, mergeScan_refused] at hv
    simp only [List.nil_append] at hv
    rcases List.mem_map.1 hv with ⟨y, hy, hyv⟩
    have hy2 := List.mem_filter.1 hy
    have hcond := hy2.2
    simp only [Bool.and_eq_true, decide_eq_true_eq] at hcond
    exact ⟨y, hy2.1, hyv.symm, hcond.1, hcond.2⟩
  · rw [if_neg hk] at hv
    simp at hv

/-- C6 amended: if the NoC refuses the fill for the primary completion or
for a same-address merge candidate, the primary completion is skipped and
retried next tick — the current entry and its data-ready stamp are
unchanged, the refused candidates themselves stay pending (in particular,
if the NoC refuses every send, every non-writeback candidate stays pending),
and entries at other addresses always stay pending; but a merge candidate
scanned after a refused send whose own send succeeds is still completed and
removed from pending in that same tick (see the counterexample). -/
theorem claim_C6_amended (mergeKnob : Bool) (noc : Nat → Bool) (now : Nat)
    (s : CompleteSt) (cur : DrbEntry) (hc : s.bank.current = some cur)
    (hnd : (s.bank.pending.map (fun x => x.slot)).Nodup) :
    ((mergePhase mergeKnob noc now cur.m_addr s.bank.pending s).needStop = true →
      (bankScheduleComplete1 mergeKnob noc now s).bank.current = s.bank.current ∧
      (bankScheduleComplete1 mergeKnob noc now s).bank.dataReady =
        s.bank.dataReady) ∧
    (∀ x ∈ s.bank.pending, ¬ x.m_addr = cur.m_addr →
      x ∈ (bankScheduleComplete1 mergeKnob noc now s).bank.pending) ∧
    ((∀ k, noc k = false) → ∀ x ∈ s.bank.pending,
      ¬ (getReq x).m_type = ReqType.MRT_WB →
      x ∈ (bankScheduleComplete1 mergeKnob noc now s).bank.pending) ∧
    ((mergePhase mergeKnob noc now cur.m_addr s.bank.pending s).needStop = false →
      ¬ (getReq cur).m_type = ReqType.MRT_WB →
      noc (mergePhase mergeKnob noc now cur.m_addr s.bank.pending s).k = false →
      (bankScheduleComplete1 mergeKnob noc now s).bank.current = s.bank.current ∧
      (bankScheduleComplete1 mergeKnob noc now s).bank.dataReady =
        s.bank.dataReady) := by
  have hred : ∀ (P : CompleteSt → Prop),
      P (if s.bank.dataReady ≤ now then
          completeTail noc now cur
            (mergePhase mergeKnob noc now cur.m_addr s.bank.pending s)
            s.bank s.total
        else s) →
      P (bankScheduleComplete1 mergeKnob noc now s) := by
    intro P hP
    unfold bankScheduleComplete1
    rw [hc]
    exact hP
  refine ⟨?_, ?_, ?_, ?_⟩
  · intro hstop
    by_cases hdr : s.bank.dataReady ≤ now
    · refine hred (fun t => t.bank.current = s.bank.current ∧
        t.bank.dataReady = s.bank.dataReady) ?_
      rw [if_pos hdr]
      exact completeTail_needStop noc now cur _ s.bank s.total hstop
    · refine hred (fun t => t.bank.current = s.bank.current ∧
        t.bank.dataReady = s.bank.dataReady) ?_
      rw [if_neg hdr]
      exact ⟨rfl, rfl⟩
  · intro x hx haddr
    by_cases hdr : s.bank.dataReady ≤ now
    · refine hred (fun t => x ∈ t.bank.pending) ?_
      rw [if_pos hdr]
      show x ∈ (completeTail noc now cur
        (mergePhase mergeKnob noc now cur.m_addr s.bank.pending s)
        s.bank s.total).bank.pending
      rw [completeTail_pending]
      refine List.mem_filter.2 ⟨hx, ?_⟩
      simp only [decide_eq_true_eq]
      intro hmem
      rcases mergePhase_slot_src mergeKnob noc now cur.m_addr s.bank.pending s
        x.slot hmem with ⟨e, he, hslot, headdr⟩
      have : e = x := List.inj_on_of_nodup_map hnd he hx hslot.symm
      rw [this] at headdr
      exact haddr headdr
    · refine hred (fun t => x ∈ t.bank.pending) ?_
      rw [if_neg hdr]
      exact hx
  · intro hrefuse0 x hx hwb
    have hnocf : noc = fun _ => false := funext hrefuse0
    subst hnocf
    by_cases hdr : s.bank.dataReady ≤ now
    · refine hred (fun t => x ∈ t.bank.pending) ?_
      rw [if_pos hdr]
      show x ∈ (completeTail (fun _ => false) now cur
        (mergePhase mergeKnob (fun _ => false) now cur.m_addr s.bank.pending s)
        s.bank s.total).bank.pending
      rw [completeTail_pending]
      refine List.mem_filter.2 ⟨hx, ?_⟩
      simp only [decide_eq_true_eq]
      intro hmem
      rcases mergePhase_slot_refused mergeKnob now cur.m_addr s.bank.pending s
        x.slot hmem with ⟨e, he, hslot, -, hewb⟩
      have : e = x := List.inj_on_of_nodup_map hnd he hx hslot.symm
      rw [this] at hewb
      exact hwb hewb
    · refine hred (fun t => x ∈ t.bank.pending) ?_
      rw [if_neg hdr]
      exact hx
  · intro hnostop hwb hrefuse
    by_cases hdr : s.bank.dataReady ≤ now
    · refine hred (fun t => t.bank.current = s.bank.current ∧
        t.bank.dataReady = s.bank.dataReady) ?_
      rw [if_pos hdr]
      exact completeTail_primaryRefused noc now cur _ s.bank s.total
        hnostop hwb hrefuse
    · refine hred (fun t => t.bank.current = s.bank.current ∧
        t.bank.dataReady = s.bank.dataReady) ?_
      rw [if_neg hdr]
      exact ⟨rfl, rfl⟩

/-- Witness for the amended C6: in the concrete scenario the merge scan hit a
refused send, so the current entry and its data-ready stamp survive the
tick; with an always-refusing NoC the non-writeback candidate `c6e1` stays
pending; and with merging disabled a refused primary fill leaves the current
entry and its data-ready stamp unchanged for the retry. -/
theorem claim_C6_amended_witness :
    ((bankScheduleComplete1 true c6noc 0 c6st).bank.current = c6st.bank.current ∧
      (bankScheduleComplete1 true c6noc 0 c6st).bank.dataReady =
        c6st.bank.dataReady) ∧
    c6e1 ∈ (bankScheduleComplete1 true (fun _ => false) 0 c6st).bank.pending ∧
    ((bankScheduleComplete1 false (fun _ => false) 0 c6st).bank.current =
        c6st.bank.current ∧
      (bankScheduleComplete1 false (fun _ => false) 0 c6st).bank.dataReady =
        c6st.bank.dataReady) := by
  refine ⟨?_, ?_, ?_⟩
  · exact (claim_C6_amended true c6noc 0 c6st c6cur rfl (by decide)).1 (by decide)
  · exact (claim_C6_amended true (fun _ => false) 0 c6st c6cur rfl
      (by decide)).2.2.1 (fun k => rfl) c6e1 (by decide) (by decide)
  · exact (claim_C6_amended false (fun _ => false) 0 c6st c6cur rfl
      (by decide)).2.2.2 (by decide) (by decide) rfl

end Dram
